import Mathlib

/-!
# Verification of the `claude_transcript_archive` CLI transcript pipeline

This file shallowly embeds the transcript-processing pipeline of
`src/claude_transcript_archive/cli.py` and proves properties of it.

Modelling conventions:

* A transcript (`content : str` in the Python code) is modelled **after** the
  per-line JSON decoding step, as a `List (Option Entry)`: each element is one
  non-blank line, `none` standing for a line whose `json.loads` failed (the
  code skips those) and `some e` for a successfully decoded record.  Blank
  lines are likewise dropped before this representation.
* JSON records are modelled by the `Entry` structure below, which carries
  exactly the fields the pipeline reads.  A missing key and a JSON `null` are
  both modelled as `none` (the pipeline only ever compares these fields with
  strings, where the two behave identically).
* Python string truthiness (`if ts:`, `if not file_path:`) is modelled by
  `strTruthy`, which sends the empty string to `none`.
* `str.strip` is modelled by `pyStrip`, which strips the four ASCII
  whitespace characters.  Python additionally strips `\x0b`, `\x0c` and
  Unicode whitespace; the inputs appearing in this development contain only
  the four ASCII whitespace characters, where the two functions agree.
* Python's `datetime.fromisoformat`/`total_seconds` (used only to derive
  `duration_minutes`) is an external library function; it is modelled as an
  explicit parameter `parseTs : String → Option ℚ` mapping an ISO timestamp
  string to epoch seconds, `none` standing for a raised `ValueError`.
* The regular-expression engine used by `detect_relationship_hints` is
  likewise modelled by parameters (`uuidFind`, `contMatch`); the fixed pattern
  texts of the source are kept verbatim.  All other regexes in the pipeline
  (greeting stripping, IDE-tag prefixes, sentence splitting, filename
  sanitizing) are simple enough to embed directly, which is done below.
-/

set_option maxRecDepth 100000

/-- Python string truthiness for an optional string value: a missing value and
the empty string are both falsy. -/
def strTruthy : Option String → Option String
  | none => none
  | some s => if s = "" then none else some s

/-- The four ASCII whitespace characters (see the header whitespace caveat). -/
def isPyWs (c : Char) : Bool := c = ' ' ∨ c = '\t' ∨ c = '\n' ∨ c = '\r'

/-- Model of Python `str.strip()` (see the header for the whitespace caveat).
Implemented on the character list so that it evaluates inside the kernel. -/
def pyStrip (s : String) : String :=
  String.mk (((s.data.dropWhile isPyWs).reverse.dropWhile isPyWs).reverse)

/-- Lowercasing, character by character (ASCII; the embedded patterns are
ASCII, where Python casefolding agrees). -/
def asLower (s : String) : String := String.mk (s.data.map Char.toLower)

/-- Structural prefix test on character lists (kernel-evaluable counterpart
of `str.startswith`). -/
def isPrefixL : List Char → List Char → Bool
  | [], _ => true
  | _ :: _, [] => false
  | c :: p, d :: l => c = d && isPrefixL p l

/-- Splitting a character list on a separator character (used for `/`). -/
def splitCharAux (sep : Char) : List Char → List Char → List (List Char)
  | [], acc => [acc.reverse]
  | c :: rest, acc =>
      if c = sep then acc.reverse :: splitCharAux sep rest []
      else splitCharAux sep rest (c :: acc)

/-- Add an element to a list used with set semantics (Python `set.add`):
membership is what matters, insertion keeps the list duplicate-free. -/
def insertSet (l : List String) (x : String) : List String :=
  if x ∈ l then l else l ++ [x]

/-- Python `dict` update `d[k] = v` on an association list: replace the value
if the key is present, else append the new binding. -/
def dictInsert (m : List (String × String)) (k v : String) : List (String × String) :=
  if m.any (·.1 = k) then m.map (fun p => if p.1 = k then (k, v) else p) else m ++ [(k, v)]

/-- `d[k] = v` for an association list with arbitrary value type. -/
def assocSet {α : Type} (m : List (String × α)) (k : String) (v : α) : List (String × α) :=
  if m.any (·.1 = k) then m.map (fun p => if p.1 = k then (k, v) else p) else m ++ [(k, v)]

/-! ## Data model: one decoded transcript line -/

/-- One element of a `message.content` list.  `obj` keeps the fields the
pipeline reads from a content-block dict: its `type`, tool `name`, `text`
payload and `input.file_path` (the only key of `input` ever read); `nonDict`
stands for a list element that is not a JSON object. -/
inductive Block where
  | obj (btype : Option String) (name : Option String) (text : Option String)
        (inputFilePath : Option String)
  | nonDict
  deriving DecidableEq

/-- `message.content` is either a plain string, a list of blocks, or some
other JSON value (`other`), which every consumer ignores. -/
inductive MsgContent where
  | str (s : String)
  | blocks (bs : List Block)
  | other
  deriving DecidableEq

/-- The `message` sub-object of a record. -/
structure Message where
  role : Option String
  content : Option MsgContent
  model : Option String
  deriving DecidableEq

/-- The `usage` sub-object of a record (read at the top level of the record by
`extract_session_stats`). -/
structure Usage where
  inputTokens : Option Nat
  outputTokens : Option Nat
  cacheReadInputTokens : Option Nat
  deriving DecidableEq

/-- One decoded JSONL record, with exactly the fields the pipeline reads. -/
structure Entry where
  type : Option String
  timestamp : Option String
  message : Option Message
  version : Option String
  usage : Option Usage
  deriving DecidableEq

/-- `entry.get("message", {}).get("role", ...)` without the default. -/
def Entry.msgRole (e : Entry) : Option String := e.message.bind (·.role)

/-- `entry.get("message", {}).get("content", ...)` without the default. -/
def Entry.msgContent (e : Entry) : Option MsgContent := e.message.bind (·.content)

/-- `entry.get("message", {}).get("model")`. -/
def Entry.msgModel (e : Entry) : Option String := e.message.bind (·.model)

/-- The block list of a record: `message.get("content", [])` restricted to the
`isinstance(msg_content, list)` branch; string or other content yields no
blocks. -/
def Entry.blocks (e : Entry) : List Block :=
  match e.msgContent.getD (.blocks []) with
  | .blocks bs => bs
  | _ => []

/-! ## File typing (`FILE_TYPE_MAPPINGS`, `get_file_type`) -/

/-- `FILE_TYPE_MAPPINGS` from the source, in source order.  The `.R` binding
is kept even though `get_file_type` lowercases the extension first, exactly as
in the source. -/
def FILE_TYPE_MAPPINGS : List (String × String) :=
  [(".py", "code"), (".js", "code"), (".ts", "code"), (".tsx", "code"),
   (".jsx", "code"), (".sh", "code"), (".bash", "code"), (".r", "code"),
   (".R", "code"), (".sql", "code"), (".go", "code"), (".rs", "code"),
   (".java", "code"), (".c", "code"), (".cpp", "code"), (".h", "code"),
   (".hpp", "code"), (".md", "document"), (".txt", "document"),
   (".rst", "document"), (".tex", "document"), (".json", "data"),
   (".csv", "data"), (".jsonl", "data"), (".geojson", "data"),
   (".xml", "data"), (".yaml", "config"), (".yml", "config"),
   (".toml", "config"), (".ini", "config"), (".env", "config"),
   (".png", "image"), (".jpg", "image"), (".jpeg", "image"),
   (".gif", "image"), (".svg", "image"), (".pdf", "document"),
   (".html", "document")]

/-- `pathlib.Path(p).name`: the final path component ( `/`-separated). -/
def pathName (p : String) : String :=
  String.mk ((((splitCharAux '/' p.data []).filter (· ≠ [])).getLast?).getD [])

/-- `pathlib.Path(p).suffix`: the extension of the final component, empty when
the last dot is at position 0 or absent (so `.env` has no suffix). -/
def pathSuffix (p : String) : String :=
  let name := pathName p
  let i := (name.data.reverse.takeWhile (· ≠ '.')).length
  -- `i` counts the characters after the last dot; `name.rfind('.')` is
  -- `name.length - i - 1` when a dot exists.
  if name.data.contains '.' ∧ 0 < i ∧ i + 1 < name.length then
    String.mk (name.data.drop (name.length - i - 1))
  else ""

/-- `get_file_type`: map the lowercased extension through the static table,
defaulting to `"other"`. -/
def get_file_type (file_path : String) : String :=
  ((FILE_TYPE_MAPPINGS.lookup (asLower (pathSuffix file_path))).getD "other")

/-! ## Title generation (`_is_ide_context_message`, `generate_title_from_content`) -/

/-- The IDE-context tag prefixes of `_is_ide_context_message`, in source
order (each source pattern is `^` followed by this literal text). -/
def idePatterns : List String :=
  ["<ide_opened_file>", "<ide_selection>", "<ide_visible_files>",
   "<system-reminder>", "<command-name>"]

/-- `_is_ide_context_message`: empty text, an IDE-context tag prefix
(case-insensitively, after stripping), or stripped length under 10. -/
def isIdeContextMessage (text : String) : Bool :=
  if text = "" then true
  else
    let t := pyStrip text
    if idePatterns.any (fun p => isPrefixL p.data (asLower t).data) then true
    else t.length < 10

/-- The greeting alternatives of `generate_title_from_content`, in the order
they appear in the regex `^(hi|hello|hey|please|can you|could you)\s+`. -/
def greetings : List String := ["hi", "hello", "hey", "please", "can you", "could you"]

/-- Does character list `l` continue with at least one whitespace character
after its first `n` characters?  (the `\s+` of the greeting regex). -/
def wsAfter (l : List Char) (n : Nat) : Bool :=
  match l.drop n with
  | c :: _ => isPyWs c
  | [] => false

/-- `re.sub(r"^(hi|hello|hey|please|can you|could you)\s+", "", s, IGNORECASE)`.
The pattern is anchored, so at most one leading greeting is removed; `\s+` is
greedy, so the whole whitespace run after the greeting goes with it.  No
greeting alternative is a prefix of another, so taking the first alternative
that matches together with a following whitespace character replicates the
regex alternation. -/
def stripGreeting (s : String) : String :=
  match greetings.find? (fun g =>
      asLower (String.mk (s.data.take g.length)) = g ∧ wsAfter s.data g.length) with
  | some g => String.mk ((s.data.drop g.length).dropWhile isPyWs)
  | none => s

/-- `re.split(r"[.!?\n]", title)[0]`: the prefix before the first sentence
terminator or newline. -/
def cutAtTerminator (s : String) : String :=
  String.mk (s.data.takeWhile (fun c => ¬(c = '.' ∨ c = '!' ∨ c = '?' ∨ c = '\n')))

/-- The transformation applied to the first accepted candidate text:
`title = msg_content.strip()`, greeting stripping, the sentence cut, then
`title[:60].strip()`. -/
def titleTransform (s : String) : String :=
  pyStrip (String.mk ((cutAtTerminator (stripGreeting (pyStrip s))).data.take 60))

/-- The candidate text a user record offers to the title generator, if any:
string content is used directly; list content yields the first block with a
truthy `text` field (`block.get("text")`), or nothing if no such block exists;
other content (including the `""` default) yields the empty string, which the
`msg_content.strip()` test then rejects. -/
def titleCandidate (e : Entry) : Option String :=
  match e.msgContent.getD (.str "") with
  | .str s => some s
  | .blocks bs =>
      (bs.findSome? (fun b =>
        match b with
        | .obj _ _ text _ => strTruthy text
        | .nonDict => none))
  | .other => none

/-- `generate_title_from_content`, over the decoded-line view of the
transcript. -/
def generate_title_from_content (lines : List (Option Entry)) : String :=
  match lines with
  | [] => "Untitled Session"
  | none :: rest => generate_title_from_content rest
  | some e :: rest =>
      let role := e.msgRole.getD ""
      if role = "user" ∨ e.type = some "user" then
        match titleCandidate e with
        | none => generate_title_from_content rest
        | some s =>
            if pyStrip s ≠ "" then
              if isIdeContextMessage s then generate_title_from_content rest
              else
                let t := titleTransform s
                if t = "" then "Untitled Session" else t
            else generate_title_from_content rest
      else generate_title_from_content rest

/-- A single-text-block user record, as produced by the test fixtures. -/
def userTextEntry (s : String) : Entry :=
  { type := some "user", timestamp := none,
    message := some { role := some "user",
                      content := some (.blocks [.obj (some "text") none (some s) none]),
                      model := none },
    version := none, usage := none }

/-! ## Filename sanitizing (`sanitize_filename`) -/

/-- ASCII `\w`: word characters (the titles handled here are ASCII, where
Python re's Unicode `\w` agrees). -/
def isWordChar (c : Char) : Bool := c.isAlphanum ∨ c = '_'

/-- `re.sub(r"\s+", "-", s)`: collapse each whitespace run to one hyphen.
The boolean argument records whether the previous character was whitespace. -/
def collapseWsAux : Bool → List Char → List Char
  | _, [] => []
  | prevWs, c :: rest =>
      if isPyWs c then
        if prevWs then collapseWsAux true rest
        else '-' :: collapseWsAux true rest
      else c :: collapseWsAux false rest

/-- `sanitize_filename`: drop non-word/non-space/non-hyphen characters,
collapse whitespace runs to single hyphens, truncate to 50, lowercase, strip
hyphens, with the `"untitled"` fallback. -/
def sanitize_filename (title : String) : String :=
  let safe := title.data.filter (fun c => isWordChar c ∨ isPyWs c ∨ c = '-')
  let safe := collapseWsAux false safe
  let cut := (safe.take 50).map Char.toLower
  let r := ((cut.dropWhile (· = '-')).reverse.dropWhile (· = '-')).reverse
  if r = [] then "untitled" else String.mk r

/-! ## Session statistics (`extract_session_stats`) -/

/-- The token totals of the running statistics record. -/
structure Tokens where
  input : Nat
  output : Nat
  cacheRead : Nat
  deriving DecidableEq

/-- The accumulator built by the line loop of `extract_session_stats`
(the `stats` dict before the derived timestamp fields are computed). -/
structure StatsAcc where
  turns : Nat
  humanMessages : Nat
  assistantMessages : Nat
  thinkingBlocks : Nat
  toolCallsTotal : Nat
  toolCallsByType : List (String × Nat)
  tokens : Tokens
  model : Option String
  claudeCodeVersion : Option String
  timestamps : List String
  deriving DecidableEq

/-- The initial `stats` dict. -/
def initStats : StatsAcc :=
  { turns := 0, humanMessages := 0, assistantMessages := 0, thinkingBlocks := 0,
    toolCallsTotal := 0, toolCallsByType := [], tokens := ⟨0, 0, 0⟩,
    model := none, claudeCodeVersion := none, timestamps := [] }

/-- `by_type[name] = by_type.get(name, 0) + 1` on the insertion-ordered dict. -/
def bumpTool (m : List (String × Nat)) (k : String) : List (String × Nat) :=
  if m.any (·.1 = k) then m.map (fun p => if p.1 = k then (p.1, p.2 + 1) else p)
  else m ++ [(k, 1)]

/-- The per-block work of the assistant branch: count `thinking` blocks and
`tool_use` blocks (by tool name, defaulting to `"unknown"`). -/
def statsBlockStep (s : StatsAcc) (b : Block) : StatsAcc :=
  match b with
  | .nonDict => s
  | .obj btype name _ _ =>
      if btype = some "thinking" then
        { s with thinkingBlocks := s.thinkingBlocks + 1 }
      else if btype = some "tool_use" then
        let toolName := name.getD "unknown"
        { s with toolCallsTotal := s.toolCallsTotal + 1,
                 toolCallsByType := bumpTool s.toolCallsByType toolName }
      else s

/-- One iteration of the line loop of `extract_session_stats`.  Note the
timestamp is collected *before* the `file-history-snapshot` skip, exactly as
in the source. -/
def statsStep (s : StatsAcc) (ol : Option Entry) : StatsAcc :=
  match ol with
  | none => s
  | some e =>
    let s := match strTruthy e.timestamp with
      | some ts => { s with timestamps := s.timestamps ++ [ts] }
      | none => s
    if e.type = some "file-history-snapshot" then s
    else
      let role := e.msgRole.getD (e.type.getD "")
      let s :=
        if role = "user" ∨ e.type = some "user" then
          { s with humanMessages := s.humanMessages + 1, turns := s.turns + 1 }
        else if role = "assistant" ∨ e.type = some "assistant" then
          let s := { s with assistantMessages := s.assistantMessages + 1 }
          let s := e.blocks.foldl statsBlockStep s
          if s.model = none then
            match strTruthy e.msgModel with
            | some m => { s with model := some m }
            | none => s
          else s
        else s
      let s :=
        if s.claudeCodeVersion = none then
          match strTruthy e.version with
          | some v => { s with claudeCodeVersion := some v }
          | none => s
        else s
      match e.usage with
      | none => s
      | some u =>
          { s with tokens :=
              { input := s.tokens.input + u.inputTokens.getD 0,
                output := s.tokens.output + u.outputTokens.getD 0,
                cacheRead := s.tokens.cacheRead + u.cacheReadInputTokens.getD 0 } }

/-- Truncation of a rational toward zero, as Python `int()` does to the float
`(end - start).total_seconds() / 60`.  Written with divisions of
non-negative integers only, so that it evaluates inside the kernel. -/
def truncQ (q : ℚ) : Int :=
  if 0 ≤ q.num then q.num / (q.den : Int) else -((-q.num) / (q.den : Int))

/-- The final result of `extract_session_stats`, with the derived
`started_at` / `ended_at` / `duration_minutes` fields. -/
structure SessionStats where
  turns : Nat
  humanMessages : Nat
  assistantMessages : Nat
  thinkingBlocks : Nat
  toolCallsTotal : Nat
  toolCallsByType : List (String × Nat)
  tokens : Tokens
  model : Option String
  claudeCodeVersion : Option String
  startedAt : Option String
  endedAt : Option String
  durationMinutes : Int
  deriving DecidableEq

/-- `extract_session_stats`.  `parseTs` models `datetime.fromisoformat` (on
the `"Z" → "+00:00"`-rewritten string) composed with conversion to epoch
seconds; `none` models a raised `ValueError`, which the source turns into
duration 0. -/
def extract_session_stats (parseTs : String → Option ℚ) (lines : List (Option Entry)) :
    SessionStats :=
  let a := lines.foldl statsStep initStats
  let derived : Option String × Option String × Int :=
    match a.timestamps with
    | [] => (none, none, 0)
    | t :: ts =>
        let mn := ts.foldl min t
        let mx := ts.foldl max t
        let dur := match parseTs (mn.replace "Z" "+00:00"), parseTs (mx.replace "Z" "+00:00") with
          | some s, some e => truncQ ((e - s) / 60)
          | _, _ => 0
        (some mn, some mx, dur)
  { turns := a.turns, humanMessages := a.humanMessages,
    assistantMessages := a.assistantMessages, thinkingBlocks := a.thinkingBlocks,
    toolCallsTotal := a.toolCallsTotal, toolCallsByType := a.toolCallsByType,
    tokens := a.tokens, model := a.model, claudeCodeVersion := a.claudeCodeVersion,
    startedAt := derived.1, endedAt := derived.2.1, durationMinutes := derived.2.2 }

/-! ## Cost estimation (`estimate_cost`) -/

/-- Pricing constants (USD per million tokens). -/
def INPUT_PRICE_PER_M : ℚ := 3
def OUTPUT_PRICE_PER_M : ℚ := 15
def CACHE_PRICE_PER_M : ℚ := 3 / 10

/-- `round(x, 4)`.  Python rounds the *float* half-to-even; this model rounds
the exact rational, half-up (`⌊x·10⁴ + 1/2⌋ / 10⁴`).  The two agree whenever
the scaled value is not exactly a half-integer, and no claim in this
development evaluates at such a boundary. -/
def pyRound4 (q : ℚ) : ℚ := (⌊q * 10000 + 1 / 2⌋ : ℚ) / 10000

/-- `estimate_cost`: the token totals weighted by the fixed per-million
prices, rounded to 4 decimal places. -/
def estimate_cost (stats : SessionStats) : ℚ :=
  pyRound4
    ((stats.tokens.input : ℚ) / 1000000 * INPUT_PRICE_PER_M
      + (stats.tokens.output : ℚ) / 1000000 * OUTPUT_PRICE_PER_M
      + (stats.tokens.cacheRead : ℚ) / 1000000 * CACHE_PRICE_PER_M)

/-! ## Artifact extraction (`extract_artifacts`) -/

/-- The three provisional path sets built by the scan loop of
`extract_artifacts`. -/
structure ArtSets where
  written : List String
  edited : List String
  read : List String
  deriving DecidableEq

/-- The per-block work of the artifact scan: a `tool_use` block with a truthy
`input.file_path` adds the path to the set selected by the tool name.  The
record role and type are never consulted. -/
def artBlockStep (s : ArtSets) (b : Block) : ArtSets :=
  match b with
  | .nonDict => s
  | .obj btype name _ inputFilePath =>
      if btype ≠ some "tool_use" then s
      else
        let toolName := name.getD ""
        match strTruthy inputFilePath with
        | none => s
        | some fp =>
            if toolName = "Write" then { s with written := insertSet s.written fp }
            else if toolName = "Edit" then { s with edited := insertSet s.edited fp }
            else if toolName = "Read" then { s with read := insertSet s.read fp }
            else s

/-- One line of the artifact scan. -/
def artStep (s : ArtSets) (ol : Option Entry) : ArtSets :=
  match ol with
  | none => s
  | some e => e.blocks.foldl artBlockStep s

/-- The full artifact scan: `written_files` / `edited_files` / `read_files`. -/
def artifactSets (lines : List (Option Entry)) : ArtSets :=
  lines.foldl artStep ⟨[], [], []⟩

/-- `make_relative`: model of
`str(Path(path).resolve().relative_to(project_dir.resolve()))` with the
`ValueError → unchanged` fallback.  `resolve()` is modelled as the identity,
which is its behaviour on absolute, normalized, symlink-free paths (the only
paths this development evaluates it on); `relative_to` strips the root prefix
componentwise, yielding `"."` on the root itself. -/
def makeRelative (projectDir : Option String) (path : String) : String :=
  match projectDir with
  | none => path
  | some root =>
      if path = root then "."
      else if isPrefixL (root ++ "/").data path.data then
        String.mk (path.data.drop (root.length + 1))
      else path

/-- One output entry of `extract_artifacts`: the (possibly relativized) path
with the file-type tag of the *original* path. -/
structure Artifact where
  path : String
  type : String
  deriving DecidableEq

/-- The three output lists of `extract_artifacts`. -/
structure ArtifactsResult where
  created : List Artifact
  modified : List Artifact
  referenced : List Artifact
  deriving DecidableEq

/-- `sorted(...)` over one of the path sets (lexicographic, as Python string
comparison). -/
def sortStrings (l : List String) : List String := List.insertionSort (· ≤ ·) l

/-- Building one output entry of `extract_artifacts`. -/
def mkArtifact (pd : Option String) (p : String) : Artifact :=
  { path := makeRelative pd p, type := get_file_type p }

/-- `extract_artifacts`: scan all tool_use blocks, apply the set-difference
deduplication, then emit the three sorted, typed, optionally-relativized
lists. -/
def extract_artifacts (lines : List (Option Entry)) (projectDir : Option String) :
    ArtifactsResult :=
  let s := artifactSets lines
  let created := s.written
  let modified := s.edited.filter (fun p => p ∉ s.written)
  let referenced := s.read.filter (fun p => p ∉ s.edited ∧ p ∉ s.written)
  { created := (sortStrings created).map (mkArtifact projectDir)
    modified := (sortStrings modified).map (mkArtifact projectDir)
    referenced := (sortStrings referenced).map (mkArtifact projectDir) }

/-- An assistant record carrying the given tool_use blocks (fixture shape). -/
def assistantToolEntry (blocks : List Block) : Entry :=
  { type := some "assistant", timestamp := none,
    message := some { role := some "assistant",
                      content := some (.blocks blocks), model := none },
    version := none, usage := none }

/-- A tool_use block with the given tool name and `file_path` input. -/
def toolUseBlock (name fp : String) : Block := .obj (some "tool_use") (some name) none (some fp)

/-! ## Relationship hints (`detect_relationship_hints`) -/

/-- The fixed continuation-language patterns, verbatim from the source. -/
def continuationPatterns : List String :=
  ["continu(?:e|ing|ed)\\s+from",
   "pick(?:ing)?\\s+up\\s+(?:from\\s+)?where",
   "previous\\s+session",
   "last\\s+session",
   "earlier\\s+(?:session|conversation)"]

/-- The result record of `detect_relationship_hints`. -/
structure Hints where
  continuesHint : Option String
  referencesHints : List String
  detectionNotes : List String
  deriving DecidableEq

/-- The flattened text of a user message for hint detection: string content
verbatim; list content joined from the `text` fields of `text`-typed blocks
with a space separator; other content (including the `""` default for a
missing key, which is a string) yields `none` for non-strings only. -/
def hintText (e : Entry) : Option String :=
  match e.msgContent.getD (.str "") with
  | .str s => some s
  | .blocks bs =>
      some (String.intercalate " "
        (bs.filterMap (fun b =>
          match b with
          | .obj btype _ text _ => if btype = some "text" then some (text.getD "") else none
          | .nonDict => none)))
  | .other => none

/-- One line of the hint scan.  `uuidFind` models the `finditer` pass of the
fixed UUID regex (the matched groups in text order, duplicates included);
`contMatch` models `re.search` of one continuation pattern against the text.
Both stand for the external regex engine applied to the fixed patterns. -/
def hintsStep (uuidFind : String → List String) (contMatch : String → String → Bool)
    (h : Hints) (ol : Option Entry) : Hints :=
  match ol with
  | none => h
  | some e =>
      let role := e.msgRole.getD ""
      if role ≠ "user" ∧ e.type ≠ some "user" then h
      else
        match hintText e with
        | none => h
        | some text =>
            let h := (uuidFind text).foldl (fun h u =>
              if u ∈ h.referencesHints then h
              else { h with
                       referencesHints := h.referencesHints ++ [u],
                       detectionNotes :=
                         h.detectionNotes ++ ["Found session ID reference: " ++ u] }) h
            continuationPatterns.foldl (fun h p =>
              if contMatch p text then
                { h with detectionNotes :=
                    h.detectionNotes
                      ++ ["Found continuation language matching: \x27" ++ p ++ "\x27"] }
              else h) h

/-- `detect_relationship_hints`: `continues_hint` is never populated. -/
def detect_relationship_hints (uuidFind : String → List String)
    (contMatch : String → String → Bool) (lines : List (Option Entry)) : Hints :=
  lines.foldl (hintsStep uuidFind contMatch)
    { continuesHint := none, referencesHints := [], detectionNotes := [] }

/-! ## Catalog store (`load_catalog`, `save_catalog`, `update_catalog`) -/

def SCHEMA_VERSION : String := "1.0"

/-- One entry of `CATALOG.json`'s `sessions` list, as built by
`update_catalog`.  Such entries always carry a boolean `needs_review`, so the
`s.get("needs_review", True)` read in `save_catalog` is modelled as the field
itself. -/
structure CatEntry where
  id : String
  directory : String
  title : String
  purpose : String
  startedAt : Option String
  durationMinutes : Int
  tags : List String
  needsReview : Bool
  deriving DecidableEq

/-- The catalog structure. -/
structure Catalog where
  schemaVersion : String
  generatedAt : Option String
  archiveLocation : String
  totalSessions : Nat
  needsReviewCount : Nat
  sessions : List CatEntry
  deriving DecidableEq

/-- The fresh catalog skeleton of `load_catalog`. -/
def defaultCatalog (archiveDir : String) : Catalog :=
  { schemaVersion := SCHEMA_VERSION, generatedAt := none,
    archiveLocation := archiveDir, totalSessions := 0, needsReviewCount := 0,
    sessions := [] }

/-- The state of a persisted JSON file: missing, present but not parseable,
or parsed to a value. -/
inductive JsonFile (α : Type) where
  | absent
  | unparseable
  | parsed (a : α)
  deriving DecidableEq

/-- `load_catalog`: a missing file *and* a `json.JSONDecodeError` both yield
the fresh skeleton; the result is wrapped in `Except` to make "never raises"
a statement rather than a typing accident. -/
def load_catalog (archiveDir : String) : JsonFile Catalog → Except String Catalog
  | .absent => .ok (defaultCatalog archiveDir)
  | .unparseable => .ok (defaultCatalog archiveDir)
  | .parsed c => .ok c

/-- Total version of `load_catalog` (it never fails). -/
def loadCatalogD (archiveDir : String) : JsonFile Catalog → Catalog
  | .absent => defaultCatalog archiveDir
  | .unparseable => defaultCatalog archiveDir
  | .parsed c => c

/-- `save_catalog`: stamp `generated_at`, recompute `total_sessions` and
`needs_review_count` from the entry list, and persist.  `now` models
`datetime.now().isoformat()`. -/
def save_catalog (now : String) (c : Catalog) : Catalog :=
  { c with generatedAt := some now,
           totalSessions := c.sessions.length,
           needsReviewCount := (c.sessions.filter (·.needsReview)).length }

/-- The metadata fields `update_catalog` reads from a `session.meta.json`
record. -/
structure CatalogInput where
  id : String
  directoryName : String
  title : String
  purpose : String
  startedAt : Option String
  durationMinutes : Int
  tags : List String
  needsReview : Bool
  deriving DecidableEq

/-- The denormalized catalog entry `update_catalog` builds. -/
def newCatEntry (m : CatalogInput) : CatEntry :=
  { id := m.id, directory := m.directoryName, title := m.title,
    purpose := m.purpose, startedAt := m.startedAt,
    durationMinutes := m.durationMinutes, tags := m.tags,
    needsReview := m.needsReview }

/-- Replace the *last* entry carrying the given id (the Python code indexes
with `{s["id"]: i for i, s in enumerate(...)}`, where a later duplicate wins);
identity when no entry carries the id. -/
def replaceLastEntry : List CatEntry → String → CatEntry → List CatEntry
  | [], _, _ => []
  | s :: rest, id0, e =>
      if rest.any (·.id = id0) then s :: replaceLastEntry rest id0 e
      else if s.id = id0 then e :: rest
      else s :: rest

/-- The sort key `lambda s: s.get("started_at") or ""`. -/
def catKey (s : CatEntry) : String := (strTruthy s.startedAt).getD ""

/-- `sessions.sort(key=..., reverse=True)`: stable descending sort by start
time, absent start times keyed as the empty string. -/
def sortSessionsDesc (l : List CatEntry) : List CatEntry :=
  List.insertionSort (fun a b => catKey b ≤ catKey a) l

/-- `update_catalog` on the persisted file state: load (defensively), replace
or append the entry for this session id, re-sort, then `save_catalog`. -/
def update_catalog (now archiveDir : String) (f : JsonFile Catalog) (m : CatalogInput) :
    JsonFile Catalog :=
  let catalog := loadCatalogD archiveDir f
  let e := newCatEntry m
  let sessions :=
    if catalog.sessions.any (·.id = m.id) then replaceLastEntry catalog.sessions m.id e
    else catalog.sessions ++ [e]
  .parsed (save_catalog now { catalog with sessions := sortSessionsDesc sessions })

/-! ## Manifest store (`load_manifest`, `save_manifest`) -/

/-- The manifest mapping, session id to archive directory. -/
abbrev Manifest : Type := List (String × String)

/-- `load_manifest`: a missing file yields the empty mapping, but — unlike
`load_catalog` — there is no exception handler, so an unparseable file raises
the `json.JSONDecodeError` out of the caller. -/
def load_manifest : JsonFile Manifest → Except String Manifest
  | .absent => .ok ([] : List (String × String))
  | .unparseable => .error "json.decoder.JSONDecodeError"
  | .parsed m => .ok m

/-! ## Metadata assembly (`create_session_metadata`) -/

/-- The three-part provenance summary. -/
structure ThreePs where
  prompt : String
  process : String
  provenance : String
  deriving DecidableEq

/-- The `session.meta.json` record, with the fields the source assembles.
`model_id` is modelled as `stats.model` directly: the source writes
`stats.get("model", "unknown")`, but the `"model"` key is always present in
the stats dict (initialized to `None`), so the default is dead code. -/
structure MetaRecord where
  schemaVersion : String
  sessionId : String
  startedAt : Option String
  endedAt : Option String
  durationMinutes : Int
  projectName : Option String
  projectDirectory : Option String
  modelProvider : String
  modelId : Option String
  claudeCodeVersion : Option String
  accessMethod : String
  stats : SessionStats
  estimatedCostUsd : ℚ
  artifacts : ArtifactsResult
  continues : Option String
  references : List String
  isPartOf : List String
  title : String
  purpose : String
  tags : List String
  threePs : ThreePs
  planFiles : List String
  archivedAt : String
  directoryName : String
  jsonlPath : String
  jsonlSha256 : String
  jsonlBytes : Nat
  needsReview : Bool
  relationshipHintsDiag : Option Hints
  deriving DecidableEq

/-- `create_session_metadata`.  `nowIso` models `datetime.now().isoformat()`;
`fileHash` models `compute_file_hash(transcript_path)` (an external SHA-256
digest of the file bytes); `jsonlBytes` models `transcript_path.stat().st_size`. -/
def create_session_metadata (nowIso fileHash : String) (projectDir : Option String)
    (sessionId : String) (jsonlBytes : Nat) (stats : SessionStats) (title : String)
    (artifacts : ArtifactsResult) (hints : Hints) (planFiles : List String)
    (directoryName : String) (threePs : Option ThreePs) (needsReview : Bool) : MetaRecord :=
  { schemaVersion := SCHEMA_VERSION,
    sessionId := sessionId,
    startedAt := stats.startedAt, endedAt := stats.endedAt,
    durationMinutes := stats.durationMinutes,
    projectName := projectDir.map pathName,
    projectDirectory := projectDir,
    modelProvider := "anthropic",
    modelId := stats.model,
    claudeCodeVersion := stats.claudeCodeVersion,
    accessMethod := "claude-code-cli",
    stats := stats,
    estimatedCostUsd := estimate_cost stats,
    artifacts := artifacts,
    continues := hints.continuesHint,
    references := hints.referencesHints,
    isPartOf := match projectDir with
      | some d => [pathName d]
      | none => [],
    title := title, purpose := "", tags := [],
    threePs := threePs.getD ⟨"", "", ""⟩,
    planFiles := planFiles,
    archivedAt := nowIso,
    directoryName := directoryName,
    jsonlPath := "raw-transcript.jsonl",
    jsonlSha256 := fileHash,
    jsonlBytes := jsonlBytes,
    needsReview := needsReview,
    relationshipHintsDiag := if hints.detectionNotes ≠ [] then some hints else none }

/-- The projection of a metadata record that `update_catalog` reads. -/
def MetaRecord.toCatalogInput (m : MetaRecord) : CatalogInput :=
  { id := m.sessionId, directoryName := m.directoryName, title := m.title,
    purpose := m.purpose, startedAt := m.startedAt,
    durationMinutes := m.durationMinutes, tags := m.tags,
    needsReview := m.needsReview }

/-! ## The archive orchestrator (`archive`) -/

/-- The source transcript file as `archive` observes it: whether it exists,
its text, the decoded-line view of that text, and its byte size
(`stat().st_size`, which is not derivable from the decoded view and is
carried separately). -/
structure Transcript where
  present : Bool
  text : String
  lines : List (Option Entry)
  sizeBytes : Nat
  deriving DecidableEq

/-- The filesystem state an archive operation reads and writes, restricted to
the archive tree plus the sidecar slot next to the transcript.  Per-directory
files (`.title`, `.last_size`, `session.meta.json`, `plans/`, renderer HTML,
`conversation.md`/`.pdf`, `raw-transcript.jsonl`) are association lists keyed
by the session directory path. -/
structure ArchState where
  manifestFile : JsonFile Manifest
  catalogFile : JsonFile Catalog
  dirs : List String
  titleFiles : List (String × String)
  sizeFiles : List (String × Nat)
  metaFiles : List (String × MetaRecord)
  planDirs : List (String × List String)
  htmlDirs : List (String × List String)
  mdFiles : List (String × String)
  pdfDirs : List String
  rawBackups : List (String × String)
  sidecar : Option MetaRecord
  deriving DecidableEq

/-- Re-key one per-directory association list under a directory rename. -/
def renameKey {α : Type} (m : List (String × α)) (old new : String) : List (String × α) :=
  m.map (fun p => if p.1 = old then (new, p.2) else p)

/-- `Path(existing_dir).rename(output_dir)`: move the directory and everything
keyed under it. -/
def renameDirState (st : ArchState) (old new : String) : ArchState :=
  { st with
      dirs := st.dirs.map (fun d => if d = old then new else d),
      titleFiles := renameKey st.titleFiles old new,
      sizeFiles := renameKey st.sizeFiles old new,
      metaFiles := renameKey st.metaFiles old new,
      planDirs := renameKey st.planDirs old new,
      htmlDirs := renameKey st.htmlDirs old new,
      mdFiles := renameKey st.mdFiles old new,
      pdfDirs := st.pdfDirs.map (fun d => if d = old then new else d),
      rawBackups := renameKey st.rawBackups old new }

/-- The environment of one archive run: clock values, external collaborators
and externally-derived inputs.  `renderedHtml` stands for the file set the
external HTML renderer (plus the in-place title patch) leaves in the session
directory; `mdRender` for the text of the markdown export (whose exact
content no claim here concerns); `convNonempty` for
`bool(extract_conversation_messages(content))`; `pdfSuccess` for the external
converter finishing within its timeout. -/
structure ArchiveEnv where
  today : String
  nowIso : String
  parseTs : String → Option ℚ
  uuidFind : String → List String
  contMatch : String → String → Bool
  projectDir : Option String
  planFiles : List String
  fileHash : String
  renderedHtml : List String
  sidecarWritable : Bool
  convNonempty : Bool
  mdRender : String
  pdfSuccess : Bool

/-- `archive`: one archive operation as a transition on `ArchState`,
returning the output directory (or `none` on the no-op and failure paths).
An unparseable manifest propagates as `.error` — `load_manifest` has no
handler.  The `.last_size` marker is stored as a number (the source writes
`str(size)` and reads it back with `int(...)`, which on files it wrote itself
cannot fail). -/
def archive (env : ArchiveEnv) (sessionId : String) (tr : Transcript)
    (archiveDir : String) (force forceRetitle : Bool) (providedTitle : Option String)
    (threePs : Option ThreePs) (st : ArchState) :
    Except String (Option String × ArchState) :=
  if tr.present = false then .ok (none, st)
  else if pyStrip tr.text = "" then .ok (none, st)
  else
    match load_manifest st.manifestFile with
    | .error e => .error e
    | .ok manifest =>
      let existingDir := manifest.lookup sessionId
      let currentSize := tr.sizeBytes
      -- `if existing_dir and not force_retitle and not force:` (dict values are
      -- strings, so truthiness is non-emptiness)
      let keep : Bool :=
        (match existingDir with | some d => d ≠ "" | none => false)
          && !forceRetitle && !force
      if keep && (match existingDir with
                  | some d => st.sizeFiles.lookup d == some currentSize
                  | none => false) then
        .ok (none, st)
      else
        let outputDir0 : Option String := if keep then existingDir else none
        let title :=
          match strTruthy providedTitle with
          | some t => t
          | none =>
            match outputDir0 with
            | some d =>
                match st.titleFiles.lookup d with
                | some tt => pyStrip tt
                | none => generate_title_from_content tr.lines
            | none => generate_title_from_content tr.lines
        let step :=
          if outputDir0 = none ∨ forceRetitle = true then
            let safeTitle := sanitize_filename title
            let dirName := env.today ++ "-"
              ++ (if safeTitle = "" then String.mk (sessionId.data.take 8) else safeTitle)
            let outDir := archiveDir ++ "/" ++ dirName
            let st1 :=
              if (match existingDir with | some d => d ≠ "" | none => false)
                  && forceRetitle
                  && (match existingDir with
                      | some d => decide (d ∈ st.dirs)
                      | none => false) then
                match existingDir with
                | some old => renameDirState st old outDir
                | none => st
              else st
            (outDir, dirName, st1)
          else
            match outputDir0 with
            | some d => (d, pathName d, st)
            | none => ("", "", st)  -- unreachable: `outputDir0 ≠ none` here
        let outputDir := step.1
        let directoryName := step.2.1
        let manifest1 := dictInsert manifest sessionId outputDir
        let st2 := { step.2.2 with
                       manifestFile := .parsed manifest1,
                       dirs := insertSet (insertSet step.2.2.dirs archiveDir) outputDir }
        let stats := extract_session_stats env.parseTs tr.lines
        let artifacts := extract_artifacts tr.lines env.projectDir
        let hints := detect_relationship_hints env.uuidFind env.contMatch tr.lines
        let planNames := env.planFiles.map pathName
        let st3 :=
          if env.planFiles ≠ [] then
            { st2 with dirs := insertSet st2.dirs (outputDir ++ "/plans"),
                       planDirs := assocSet st2.planDirs outputDir planNames }
          else st2
        let st4 := { st3 with htmlDirs := assocSet st3.htmlDirs outputDir env.renderedHtml }
        let needsReview := threePs.isNone
        let meta := create_session_metadata env.nowIso env.fileHash env.projectDir
          sessionId tr.sizeBytes stats title artifacts hints planNames directoryName
          threePs needsReview
        let st5 := { st4 with metaFiles := assocSet st4.metaFiles outputDir meta }
        let st5 := if env.sidecarWritable then { st5 with sidecar := some meta } else st5
        let st6 :=
          match threePs with
          | none => st5
          | some _ =>
              if env.convNonempty then
                let s := { st5 with mdFiles := assocSet st5.mdFiles outputDir env.mdRender }
                if env.pdfSuccess then { s with pdfDirs := insertSet s.pdfDirs outputDir }
                else s
              else st5
        let st7 := { st6 with
                       catalogFile :=
                         update_catalog env.nowIso archiveDir st6.catalogFile
                           meta.toCatalogInput }
        let st8 := { st7 with
                       titleFiles := assocSet st7.titleFiles outputDir title,
                       sizeFiles := assocSet st7.sizeFiles outputDir tr.sizeBytes,
                       rawBackups := assocSet st7.rawBackups outputDir tr.text }
        .ok (some outputDir, st8)

/-! ## Spec-side definitions and fixtures used by the claim statements -/

/-- The path fields of an artifact list, in order. -/
def pathsOf (l : List Artifact) : List String := l.map (·.path)

/-- The `file_path` a block contributes for a given tool name: it must be a
`tool_use` block with that name and a truthy `file_path` input. -/
def blockToolPath (toolName : String) (b : Block) : Option String :=
  match b with
  | .obj btype name _ fp =>
      if btype = some "tool_use" ∧ name.getD "" = toolName then strTruthy fp else none
  | .nonDict => none

/-- The `file_path` values the given line contributes for a given tool name. -/
def entryToolPaths (toolName : String) (ol : Option Entry) : List String :=
  match ol with
  | none => []
  | some e => e.blocks.filterMap (blockToolPath toolName)

/-- Spec-side: the `file_path` values seen in `Write` tool_use blocks. -/
def specWrittenPaths (lines : List (Option Entry)) : List String :=
  lines.flatMap (entryToolPaths "Write")

/-- Spec-side: the `file_path` values seen in `Edit` tool_use blocks. -/
def specEditedPaths (lines : List (Option Entry)) : List String :=
  lines.flatMap (entryToolPaths "Edit")

/-- Spec-side: the `file_path` values seen in `Read` tool_use blocks. -/
def specReadPaths (lines : List (Option Entry)) : List String :=
  lines.flatMap (entryToolPaths "Read")

/-- Spec-side: the distinct file paths seen across write/edit/read tool
calls (membership is what the claims quantify over). -/
def specSeenPaths (lines : List (Option Entry)) : List String :=
  lines.flatMap (fun ol =>
    entryToolPaths "Write" ol ++ entryToolPaths "Edit" ol ++ entryToolPaths "Read" ol)

/-- Erase the role of a record, keeping everything else. -/
def eraseRole (e : Entry) : Entry :=
  { e with message := e.message.map (fun m => { m with role := none }) }

/-- Erase the top-level type of a record, keeping everything else. -/
def eraseType (e : Entry) : Entry := { e with type := none }

/-- A record keeping only the timestamp of the original. -/
def tsOnlyEntry (e : Entry) : Entry :=
  { type := none, timestamp := e.timestamp, message := none, version := none, usage := none }

/-- Rename the snapshot marker type to another non-`"user"` type, keeping
everything else. -/
def snapRetype (e : Entry) : Entry :=
  if e.type = some "file-history-snapshot" then { e with type := some "snapshot" } else e

/-- A *user*-role record carrying a `Write` tool_use block (shaped like the
assistant fixtures, but with role and type `user`). -/
def userWriteToolEntry : Entry :=
  { type := some "user", timestamp := none,
    message := some { role := some "user",
                      content := some (.blocks [toolUseBlock "Write" "/a.py"]),
                      model := none },
    version := none, usage := none }

/-- A snapshot-marker record carrying only a timestamp (the shape the hook
writes: its other payload is a `files` map the pipeline never reads). -/
def snapTsEntry : Entry :=
  { type := some "file-history-snapshot", timestamp := some "2026-01-14T10:00:00.000Z",
    message := none, version := none, usage := none }

/-- A stats record carrying given token totals (all other fields at their
initial values); `estimate_cost` reads only the totals. -/
def statsWithTokens (t : Tokens) : SessionStats :=
  { turns := 0, humanMessages := 0, assistantMessages := 0, thinkingBlocks := 0,
    toolCallsTotal := 0, toolCallsByType := [], tokens := t, model := none,
    claudeCodeVersion := none, startedAt := none, endedAt := none, durationMinutes := 0 }

/-- The catalog on disk after a sequence of `update_catalog` calls starting
from no catalog file, read back through `load_catalog`'s total form. -/
def catalogAfter (archiveDir : String) (updates : List (String × CatalogInput)) : Catalog :=
  loadCatalogD archiveDir
    (updates.foldl (fun f u => update_catalog u.1 archiveDir f u.2) JsonFile.absent)

/-- A concrete environment for the idempotence witness: empty external
collaborators, parse failures everywhere. -/
def env0 : ArchiveEnv :=
  { today := "2026-02-03", nowIso := "2026-02-03T00:00:00",
    parseTs := fun _ => none, uuidFind := fun _ => [], contMatch := fun _ _ => false,
    projectDir := none, planFiles := [], fileHash := "h", renderedHtml := [],
    sidecarWritable := true, convNonempty := false, mdRender := "", pdfSuccess := false }

/-- A concrete one-byte transcript for the idempotence witness. -/
def tr0 : Transcript := { present := true, text := "x", lines := [], sizeBytes := 1 }

/-- A concrete archive state for the idempotence witness: session `"s1"`
already archived to `/arch/d1`, whose size marker matches `tr0`. -/
def st0 : ArchState :=
  { manifestFile := .parsed [("s1", "/arch/d1")], catalogFile := .absent,
    dirs := ["/arch", "/arch/d1"], titleFiles := [("/arch/d1", "t")],
    sizeFiles := [("/arch/d1", 1)], metaFiles := [], planDirs := [], htmlDirs := [],
    mdFiles := [], pdfDirs := [], rawBackups := [], sidecar := none }

/-! ## Theorems -/

/-- C3 counterexample: loading the *manifest* when the stored file exists but
is not parseable JSON does not return the fresh default — `load_manifest` has
no handler, so the `json.JSONDecodeError` propagates. -/
theorem C3_counterexample :
    load_manifest JsonFile.unparseable = Except.error "json.decoder.JSONDecodeError" := rfl

/-- C3 (amended): only the *catalog* loader treats an unparseable stored file
as absent — it returns the fresh skeleton and never raises for any file
state; the *manifest* loader returns the empty mapping only for a missing
file and propagates the JSON parse error when the file exists but is
unparseable. -/
theorem C3_amended :
    (∀ dir f, load_catalog dir f = .ok (loadCatalogD dir f))
    ∧ (∀ dir, load_catalog dir .unparseable = .ok (defaultCatalog dir))
    ∧ load_manifest .absent = .ok ([] : Manifest)
    ∧ load_manifest .unparseable = .error "json.decoder.JSONDecodeError" := by
  refine ⟨fun dir f => ?_, fun dir => rfl, rfl, rfl⟩
  cases f <;> rfl

/-- C7 counterexample: for the transcript whose (only, hence first
substantive) user message text is `"Hello can you fix the bug?"`, the
generated title is not `"fix the bug"`. -/
theorem C7_counterexample :
    generate_title_from_content [some (userTextEntry "Hello can you fix the bug?")]
      ≠ "fix the bug" := by
  decide

/-- C7 (amended): the generated title for that transcript is
`"can you fix the bug"`: the greeting substitution is anchored, so exactly
one leading greeting phrase (`"Hello "`) is stripped — the following
`"can you "` survives — and the text is then cut at the `"?"` terminator. -/
theorem C7_amended :
    titleTransform "Hello can you fix the bug?" = "can you fix the bug"
    ∧ generate_title_from_content [some (userTextEntry "Hello can you fix the bug?")]
        = "can you fix the bug" := by
  constructor <;> decide

/-- C8: `estimate_cost` is a pure function of the three token totals — it
equals the per-million-rate formula rounded to 4 decimal places, one million
tokens of each kind cost `18.30`, and zero tokens cost `0`. -/
theorem C8_estimate_cost :
    (∀ stats : SessionStats,
      estimate_cost stats =
        pyRound4 ((stats.tokens.input : ℚ) / 1000000 * 3
          + (stats.tokens.output : ℚ) / 1000000 * 15
          + (stats.tokens.cacheRead : ℚ) / 1000000 * (3 / 10)))
    ∧ estimate_cost (statsWithTokens ⟨1000000, 1000000, 1000000⟩) = 183 / 10
    ∧ estimate_cost (statsWithTokens ⟨0, 0, 0⟩) = 0 := by
  refine ⟨fun stats => rfl, ?_, ?_⟩
  · have base : estimate_cost (statsWithTokens ⟨1000000, 1000000, 1000000⟩)
        = pyRound4 (((1000000 : Nat) : ℚ) / 1000000 * INPUT_PRICE_PER_M
            + ((1000000 : Nat) : ℚ) / 1000000 * OUTPUT_PRICE_PER_M
            + ((1000000 : Nat) : ℚ) / 1000000 * CACHE_PRICE_PER_M) := rfl
    rw [base, show ((1000000 : Nat) : ℚ) / 1000000 * INPUT_PRICE_PER_M
            + ((1000000 : Nat) : ℚ) / 1000000 * OUTPUT_PRICE_PER_M
            + ((1000000 : Nat) : ℚ) / 1000000 * CACHE_PRICE_PER_M = 183 / 10 by
          norm_num [INPUT_PRICE_PER_M, OUTPUT_PRICE_PER_M, CACHE_PRICE_PER_M]]
    unfold pyRound4
    rw [show (183 : ℚ) / 10 * 10000 + 1 / 2 = 366001 / 2 by norm_num,
        show ⌊(366001 : ℚ) / 2⌋ = 183000 by rw [Int.floor_eq_iff]; norm_num]
    norm_num
  · have base : estimate_cost (statsWithTokens ⟨0, 0, 0⟩)
        = pyRound4 (((0 : Nat) : ℚ) / 1000000 * INPUT_PRICE_PER_M
            + ((0 : Nat) : ℚ) / 1000000 * OUTPUT_PRICE_PER_M
            + ((0 : Nat) : ℚ) / 1000000 * CACHE_PRICE_PER_M) := rfl
    rw [base, show ((0 : Nat) : ℚ) / 1000000 * INPUT_PRICE_PER_M
            + ((0 : Nat) : ℚ) / 1000000 * OUTPUT_PRICE_PER_M
            + ((0 : Nat) : ℚ) / 1000000 * CACHE_PRICE_PER_M = 0 by norm_num]
    unfold pyRound4
    rw [show (0 : ℚ) * 10000 + 1 / 2 = 1 / 2 by norm_num,
        show ⌊(1 : ℚ) / 2⌋ = 0 by rw [Int.floor_eq_iff]; norm_num]
    norm_num

/-- C4 counterexample: a snapshot-marker record *does* contribute its
timestamp to the `started_at` computation — with a lone snapshot record the
fold yields that timestamp, while the empty fold yields none. -/
theorem C4_counterexample :
    (extract_session_stats (fun _ => none) [some snapTsEntry]).startedAt
        = some "2026-01-14T10:00:00.000Z"
    ∧ (extract_session_stats (fun _ => none) []).startedAt = none := by
  constructor <;> decide

/-- C5 counterexample: a record whose role (and type) is `user` — not
assistant — carrying a `Write` tool_use block with a `file_path` contributes
that path to the created set. -/
theorem C5_counterexample :
    (extract_artifacts [some userWriteToolEntry] none).created = [⟨"/a.py", "code"⟩] := by
  decide

/-- C6 counterexample: with a project root, the rewritten path fields of an
output list need not be sorted — `/a/z.py` rewrites to `z.py`, which sorts
after the untouched `/b/a.py`. -/
theorem C6_counterexample :
    ¬ List.Sorted (· ≤ ·)
        (pathsOf (extract_artifacts
          [some (assistantToolEntry
            [toolUseBlock "Write" "/a/z.py", toolUseBlock "Write" "/b/a.py"])]
          (some "/a")).created) := by
  have hle : ("/a/z.py" : String) ≤ "/b/a.py" := by
    rw [String.le_iff_toList_le]; decide
  have hW : artifactSets
      [some (assistantToolEntry
        [toolUseBlock "Write" "/a/z.py", toolUseBlock "Write" "/b/a.py"])]
      = ⟨["/a/z.py", "/b/a.py"], [], []⟩ := by decide
  have h : pathsOf (extract_artifacts
      [some (assistantToolEntry
        [toolUseBlock "Write" "/a/z.py", toolUseBlock "Write" "/b/a.py"])]
      (some "/a")).created = ["z.py", "/b/a.py"] := by
    rw [extract_artifacts, hW]
    show pathsOf ((sortStrings ["/a/z.py", "/b/a.py"]).map (mkArtifact (some "/a"))) = _
    rw [show sortStrings ["/a/z.py", "/b/a.py"] = ["/a/z.py", "/b/a.py"] by
      simp [sortStrings, List.insertionSort, List.orderedInsert, hle]]
    decide
  rw [h]
  intro hs
  have h2 : ("z.py" : String) ≤ "/b/a.py" :=
    List.rel_of_sorted_cons hs _ (by simp)
  rw [String.le_iff_toList_le] at h2
  revert h2
  decide

/-- C10: when the transcript's first (and only) user message is an accepted
candidate — non-blank, not IDE context (which includes stripped length at
least 10) — whose transformation (greeting strip, sentence cut, truncation,
strip) is empty, the generator yields the fallback title, not the empty
string. -/
theorem C10_fallback_on_empty_transform (s : String) (h1 : pyStrip s ≠ "")
    (h2 : isIdeContextMessage s = false) (h3 : titleTransform s = "") :
    generate_title_from_content [some (userTextEntry s)] = "Untitled Session" := by
  have hs : s ≠ "" := by
    intro h
    exact h1 (by rw [h]; rfl)
  have hcand : titleCandidate (userTextEntry s) = some s := by
    simp [titleCandidate, userTextEntry, Entry.msgContent, strTruthy, hs]
  have hrole : (userTextEntry s).msgRole.getD "" = "user" := rfl
  simp only [generate_title_from_content, hrole, hcand, h2, h3]
  simp [h1]

/-- C10 witness: the candidate `"hi .........."` is accepted (non-blank, not
IDE context, stripped length 13) but transforms to the empty string — the
greeting strip removes `"hi "` and the sentence cut stops at the first `"."`
— so the generator yields the fallback. -/
theorem C10_witness :
    pyStrip "hi .........." ≠ ""
    ∧ isIdeContextMessage "hi .........." = false
    ∧ titleTransform "hi .........." = ""
    ∧ generate_title_from_content [some (userTextEntry "hi ..........")]
        = "Untitled Session" :=
  ⟨by decide, by decide, by decide,
    C10_fallback_on_empty_transform "hi .........." (by decide) (by decide) (by decide)⟩

/-- Erasing the role leaves the block list unchanged. -/
theorem blocks_eraseRole (e : Entry) : (eraseRole e).blocks = e.blocks := by
  cases hm : e.message <;> simp [eraseRole, Entry.blocks, Entry.msgContent, hm]

/-- The artifact scan does not read the role. -/
theorem artStep_eraseRole (s : ArtSets) (ol : Option Entry) :
    artStep s (Option.map eraseRole ol) = artStep s ol := by
  cases ol with
  | none => rfl
  | some e => simp [artStep, blocks_eraseRole]

/-- C5 (amended): the artifact extractor does not consult the record role at
all — erasing every role leaves the result unchanged, so tool_use blocks with
a `Write`/`Edit`/`Read` name and a `file_path` contribute their path whatever
the carrying record's role (user-role records included). -/
theorem C5_role_not_consulted (lines : List (Option Entry)) (pd : Option String) :
    extract_artifacts (lines.map (Option.map eraseRole)) pd = extract_artifacts lines pd := by
  have h : artifactSets (lines.map (Option.map eraseRole)) = artifactSets lines := by
    unfold artifactSets
    rw [List.foldl_map]
    exact List.foldl_ext _ _ _ (fun acc b _ => artStep_eraseRole acc b)
  unfold extract_artifacts
  rw [h]

/-- Erasing the type leaves the block list unchanged. -/
theorem blocks_eraseType (e : Entry) : (eraseType e).blocks = e.blocks := rfl

/-- The artifact scan does not read the record type. -/
theorem artStep_eraseType (s : ArtSets) (ol : Option Entry) :
    artStep s (Option.map eraseType ol) = artStep s ol := by
  cases ol with
  | none => rfl
  | some e => simp [artStep, blocks_eraseType]

/-- On a snapshot-marker record the statistics step appends the timestamp and
does nothing else, which is exactly what it does on the timestamp-only record. -/
theorem statsStep_snapshot (e : Entry) (h : e.type = some "file-history-snapshot")
    (s : StatsAcc) : statsStep s (some e) = statsStep s (some (tsOnlyEntry e)) := by
  simp [statsStep, tsOnlyEntry, h, Entry.msgRole, Entry.msgModel, strTruthy]

/-- The hint scan reads the record type only through the `entry_type != "user"`
test, which a snapshot retype preserves. -/
theorem hintsStep_snapRetype (u : String → List String) (c : String → String → Bool)
    (h : Hints) (ol : Option Entry) :
    hintsStep u c h (Option.map snapRetype ol) = hintsStep u c h ol := by
  cases ol with
  | none => rfl
  | some e =>
    by_cases ht : e.type = some "file-history-snapshot"
    · simp [hintsStep, snapRetype, ht, Entry.msgRole, hintText, Entry.msgContent]
    · simp [snapRetype, ht]

/-- C4 (amended): a snapshot-marker record is excluded from the statistics
fold *except* that its timestamp is still collected (so it can contribute to
`started_at`/`ended_at`/`duration_minutes`): replacing it by a record keeping
only its timestamp changes nothing.  The artifact extractor never consults
the record type, and the relationship detector consults it only to test for
the `user` type, so a snapshot-typed record contributes to those folds
exactly as a record with any other non-user type and the same remaining
fields. -/
theorem C4_snapshot_exclusion :
    (∀ (parseTs : String → Option ℚ) (pre post : List (Option Entry)) (e : Entry),
      e.type = some "file-history-snapshot" →
        extract_session_stats parseTs (pre ++ some e :: post)
          = extract_session_stats parseTs (pre ++ some (tsOnlyEntry e) :: post))
    ∧ (∀ (lines : List (Option Entry)) (pd : Option String),
        extract_artifacts (lines.map (Option.map eraseType)) pd
          = extract_artifacts lines pd)
    ∧ (∀ (u : String → List String) (c : String → String → Bool)
          (lines : List (Option Entry)),
        detect_relationship_hints u c (lines.map (Option.map snapRetype))
          = detect_relationship_hints u c lines) := by
  refine ⟨fun parseTs pre post e he => ?_, fun lines pd => ?_, fun u c lines => ?_⟩
  · unfold extract_session_stats
    rw [List.foldl_append, List.foldl_append, List.foldl_cons, List.foldl_cons,
      statsStep_snapshot e he]
  · have h : artifactSets (lines.map (Option.map eraseType)) = artifactSets lines := by
      unfold artifactSets
      rw [List.foldl_map]
      exact List.foldl_ext _ _ _ (fun acc b _ => artStep_eraseType acc b)
    unfold extract_artifacts
    rw [h]
  · unfold detect_relationship_hints
    rw [List.foldl_map]
    exact List.foldl_ext _ _ _ (fun acc b _ => hintsStep_snapRetype u c acc b)

/-- C4 witness: the amended statistics equality applied to the concrete
snapshot record with a timestamp. -/
theorem C4_snapshot_exclusion_witness :
    extract_session_stats (fun _ => none) ([] ++ some snapTsEntry :: [])
      = extract_session_stats (fun _ => none) ([] ++ some (tsOnlyEntry snapTsEntry) :: []) :=
  C4_snapshot_exclusion.1 (fun _ => none) [] [] snapTsEntry rfl

/-- With no project root, the emitted path fields are exactly the source
paths. -/
theorem pathsOf_map_mkArtifact_none (l : List String) :
    pathsOf (l.map (mkArtifact none)) = l := by
  simp only [pathsOf, List.map_map]
  have h : ((fun a => a.path) ∘ mkArtifact none : String → String) = id := by
    funext p; rfl
  rw [h, List.map_id]

/-- C6 (amended): each output list is sorted lexicographically by the
*pre-relativization* path: with no project root the emitted path fields
themselves are sorted, and for any project root the output is the pointwise
relativization of that sorted root-less output (so the rewritten path fields
need not be sorted — see the counterexample). -/
theorem C6_sorted_by_original_path (lines : List (Option Entry)) (pd : Option String) :
    (List.Sorted (· ≤ ·) (pathsOf (extract_artifacts lines none).created)
      ∧ List.Sorted (· ≤ ·) (pathsOf (extract_artifacts lines none).modified)
      ∧ List.Sorted (· ≤ ·) (pathsOf (extract_artifacts lines none).referenced))
    ∧ ((extract_artifacts lines pd).created
          = (extract_artifacts lines none).created.map
              (fun a => ⟨makeRelative pd a.path, a.type⟩)
      ∧ (extract_artifacts lines pd).modified
          = (extract_artifacts lines none).modified.map
              (fun a => ⟨makeRelative pd a.path, a.type⟩)
      ∧ (extract_artifacts lines pd).referenced
          = (extract_artifacts lines none).referenced.map
              (fun a => ⟨makeRelative pd a.path, a.type⟩)) := by
  have hc : ∀ q, (extract_artifacts lines q).created
      = (sortStrings (artifactSets lines).written).map (mkArtifact q) := fun q => rfl
  have hm : ∀ q, (extract_artifacts lines q).modified
      = (sortStrings ((artifactSets lines).edited.filter
          (fun p => p ∉ (artifactSets lines).written))).map (mkArtifact q) := fun q => rfl
  have hr : ∀ q, (extract_artifacts lines q).referenced
      = (sortStrings ((artifactSets lines).read.filter
          (fun p => p ∉ (artifactSets lines).edited
            ∧ p ∉ (artifactSets lines).written))).map (mkArtifact q) := fun q => rfl
  refine ⟨⟨?_, ?_, ?_⟩, ?_, ?_, ?_⟩
  · rw [hc none, pathsOf_map_mkArtifact_none]
    exact List.sorted_insertionSort _ _
  · rw [hm none, pathsOf_map_mkArtifact_none]
    exact List.sorted_insertionSort _ _
  · rw [hr none, pathsOf_map_mkArtifact_none]
    exact List.sorted_insertionSort _ _
  · rw [hc pd, hc none, List.map_map]; rfl
  · rw [hm pd, hm none, List.map_map]; rfl
  · rw [hr pd, hr none, List.map_map]; rfl

/-- Membership in a set-semantics insertion. -/
theorem mem_insertSet {l : List String} {x p : String} :
    p ∈ insertSet l x ↔ p ∈ l ∨ p = x := by
  unfold insertSet
  split_ifs with h
  · constructor
    · exact Or.inl
    · rintro (hp | rfl)
      · exact hp
      · exact h
  · simp

/-- The `written` component of one artifact block step, phrased through the
per-tool contribution. -/
theorem artBlockStep_written (s : ArtSets) (b : Block) :
    (artBlockStep s b).written
      = match blockToolPath "Write" b with
        | some fp => insertSet s.written fp
        | none => s.written := by
  cases b with
  | nonDict => rfl
  | obj btype name text fp =>
    by_cases h1 : btype = some "tool_use"
    · simp only [artBlockStep, blockToolPath, h1]
      cases hfp : strTruthy fp with
      | none => simp [hfp]
      | some p => by_cases hw : name.getD "" = "Write" <;> split_ifs <;> simp_all
    · simp [artBlockStep, blockToolPath, h1]

/-- The `edited` component of one artifact block step. -/
theorem artBlockStep_edited (s : ArtSets) (b : Block) :
    (artBlockStep s b).edited
      = match blockToolPath "Edit" b with
        | some fp => insertSet s.edited fp
        | none => s.edited := by
  cases b with
  | nonDict => rfl
  | obj btype name text fp =>
    by_cases h1 : btype = some "tool_use"
    · simp only [artBlockStep, blockToolPath, h1]
      cases hfp : strTruthy fp with
      | none => simp [hfp]
      | some p => by_cases hw : name.getD "" = "Edit" <;> split_ifs <;> simp_all
    · simp [artBlockStep, blockToolPath, h1]

/-- The `read` component of one artifact block step. -/
theorem artBlockStep_read (s : ArtSets) (b : Block) :
    (artBlockStep s b).read
      = match blockToolPath "Read" b with
        | some fp => insertSet s.read fp
        | none => s.read := by
  cases b with
  | nonDict => rfl
  | obj btype name text fp =>
    by_cases h1 : btype = some "tool_use"
    · simp only [artBlockStep, blockToolPath, h1]
      cases hfp : strTruthy fp with
      | none => simp [hfp]
      | some p => by_cases hw : name.getD "" = "Read" <;> split_ifs <;> simp_all
    · simp [artBlockStep, blockToolPath, h1]

/-- Membership in the `written` set accumulated over one block list. -/
theorem mem_written_foldl_blocks (bs : List Block) :
    ∀ (s : ArtSets) (p : String),
      p ∈ (bs.foldl artBlockStep s).written
        ↔ p ∈ s.written ∨ p ∈ bs.filterMap (blockToolPath "Write") := by
  induction bs with
  | nil => simp
  | cons b bs ih =>
    intro s p
    rw [List.foldl_cons, ih, List.filterMap_cons]
    cases hb : blockToolPath "Write" b with
    | none => simp [artBlockStep_written, hb]
    | some fp =>
      simp only [artBlockStep_written, hb, mem_insertSet, List.mem_cons]
      tauto

/-- Membership in the `edited` set accumulated over one block list. -/
theorem mem_edited_foldl_blocks (bs : List Block) :
    ∀ (s : ArtSets) (p : String),
      p ∈ (bs.foldl artBlockStep s).edited
        ↔ p ∈ s.edited ∨ p ∈ bs.filterMap (blockToolPath "Edit") := by
  induction bs with
  | nil => simp
  | cons b bs ih =>
    intro s p
    rw [List.foldl_cons, ih, List.filterMap_cons]
    cases hb : blockToolPath "Edit" b with
    | none => simp [artBlockStep_edited, hb]
    | some fp =>
      simp only [artBlockStep_edited, hb, mem_insertSet, List.mem_cons]
      tauto

/-- Membership in the `read` set accumulated over one block list. -/
theorem mem_read_foldl_blocks (bs : List Block) :
    ∀ (s : ArtSets) (p : String),
      p ∈ (bs.foldl artBlockStep s).read
        ↔ p ∈ s.read ∨ p ∈ bs.filterMap (blockToolPath "Read") := by
  induction bs with
  | nil => simp
  | cons b bs ih =>
    intro s p
    rw [List.foldl_cons, ih, List.filterMap_cons]
    cases hb : blockToolPath "Read" b with
    | none => simp [artBlockStep_read, hb]
    | some fp =>
      simp only [artBlockStep_read, hb, mem_insertSet, List.mem_cons]
      tauto

/-- Membership in the `written` set of the full scan. -/
theorem mem_written_artifactSets (lines : List (Option Entry)) (p : String) :
    p ∈ (artifactSets lines).written ↔ p ∈ specWrittenPaths lines := by
  suffices h : ∀ (s : ArtSets),
      p ∈ (lines.foldl artStep s).written
        ↔ p ∈ s.written ∨ p ∈ lines.flatMap (entryToolPaths "Write") by
    have := h ⟨[], [], []⟩
    simpa [artifactSets, specWrittenPaths] using this
  induction lines with
  | nil => simp
  | cons ol rest ih =>
    intro s
    rw [List.foldl_cons, ih, List.flatMap_cons, List.mem_append]
    cases ol with
    | none => simp [artStep, entryToolPaths]
    | some e =>
      rw [show artStep s (some e) = e.blocks.foldl artBlockStep s from rfl,
        mem_written_foldl_blocks]
      simp only [entryToolPaths]
      tauto

/-- Membership in the `edited` set of the full scan. -/
theorem mem_edited_artifactSets (lines : List (Option Entry)) (p : String) :
    p ∈ (artifactSets lines).edited ↔ p ∈ specEditedPaths lines := by
  suffices h : ∀ (s : ArtSets),
      p ∈ (lines.foldl artStep s).edited
        ↔ p ∈ s.edited ∨ p ∈ lines.flatMap (entryToolPaths "Edit") by
    have := h ⟨[], [], []⟩
    simpa [artifactSets, specEditedPaths] using this
  induction lines with
  | nil => simp
  | cons ol rest ih =>
    intro s
    rw [List.foldl_cons, ih, List.flatMap_cons, List.mem_append]
    cases ol with
    | none => simp [artStep, entryToolPaths]
    | some e =>
      rw [show artStep s (some e) = e.blocks.foldl artBlockStep s from rfl,
        mem_edited_foldl_blocks]
      simp only [entryToolPaths]
      tauto

/-- Membership in the `read` set of the full scan. -/
theorem mem_read_artifactSets (lines : List (Option Entry)) (p : String) :
    p ∈ (artifactSets lines).read ↔ p ∈ specReadPaths lines := by
  suffices h : ∀ (s : ArtSets),
      p ∈ (lines.foldl artStep s).read
        ↔ p ∈ s.read ∨ p ∈ lines.flatMap (entryToolPaths "Read") by
    have := h ⟨[], [], []⟩
    simpa [artifactSets, specReadPaths] using this
  induction lines with
  | nil => simp
  | cons ol rest ih =>
    intro s
    rw [List.foldl_cons, ih, List.flatMap_cons, List.mem_append]
    cases ol with
    | none => simp [artStep, entryToolPaths]
    | some e =>
      rw [show artStep s (some e) = e.blocks.foldl artBlockStep s from rfl,
        mem_read_foldl_blocks]
      simp only [entryToolPaths]
      tauto

/-- Seen paths decompose over the three tool names. -/
theorem mem_specSeenPaths (lines : List (Option Entry)) (p : String) :
    p ∈ specSeenPaths lines
      ↔ p ∈ specWrittenPaths lines ∨ p ∈ specEditedPaths lines ∨ p ∈ specReadPaths lines := by
  simp only [specSeenPaths, specWrittenPaths, specEditedPaths, specReadPaths,
    List.mem_flatMap, List.mem_append]
  aesop

/-- C1: the final classification of the artifact extractor is exactly the
set algebra `created = written`, `modified = edited − written`,
`referenced = read − edited − written` over the sets of `file_path` values
seen in Write/Edit/Read tool_use blocks; consequently the three output sets
are pairwise disjoint and their union is the set of distinct file paths seen
across write/edit/read tool calls. -/
theorem C1_artifact_classification (lines : List (Option Entry)) (p : String) :
    (p ∈ pathsOf (extract_artifacts lines none).created ↔ p ∈ specWrittenPaths lines)
    ∧ (p ∈ pathsOf (extract_artifacts lines none).modified
        ↔ p ∈ specEditedPaths lines ∧ p ∉ specWrittenPaths lines)
    ∧ (p ∈ pathsOf (extract_artifacts lines none).referenced
        ↔ p ∈ specReadPaths lines ∧ p ∉ specEditedPaths lines
          ∧ p ∉ specWrittenPaths lines)
    ∧ ¬(p ∈ pathsOf (extract_artifacts lines none).created
        ∧ p ∈ pathsOf (extract_artifacts lines none).modified)
    ∧ ¬(p ∈ pathsOf (extract_artifacts lines none).created
        ∧ p ∈ pathsOf (extract_artifacts lines none).referenced)
    ∧ ¬(p ∈ pathsOf (extract_artifacts lines none).modified
        ∧ p ∈ pathsOf (extract_artifacts lines none).referenced)
    ∧ ((p ∈ pathsOf (extract_artifacts lines none).created
        ∨ p ∈ pathsOf (extract_artifacts lines none).modified
        ∨ p ∈ pathsOf (extract_artifacts lines none).referenced)
        ↔ p ∈ specSeenPaths lines) := by
  have hc : p ∈ pathsOf (extract_artifacts lines none).created
      ↔ p ∈ specWrittenPaths lines := by
    rw [show (extract_artifacts lines none).created
        = (sortStrings (artifactSets lines).written).map (mkArtifact none) from rfl,
      pathsOf_map_mkArtifact_none, sortStrings, List.mem_insertionSort,
      mem_written_artifactSets]
  have hm : p ∈ pathsOf (extract_artifacts lines none).modified
      ↔ p ∈ specEditedPaths lines ∧ p ∉ specWrittenPaths lines := by
    rw [show (extract_artifacts lines none).modified
        = (sortStrings ((artifactSets lines).edited.filter
            (fun q => q ∉ (artifactSets lines).written))).map (mkArtifact none) from rfl,
      pathsOf_map_mkArtifact_none, sortStrings, List.mem_insertionSort]
    simp only [List.mem_filter, decide_not, Bool.not_eq_true', decide_eq_false_iff_not,
      mem_edited_artifactSets, mem_written_artifactSets]
  have hr : p ∈ pathsOf (extract_artifacts lines none).referenced
      ↔ p ∈ specReadPaths lines ∧ p ∉ specEditedPaths lines
        ∧ p ∉ specWrittenPaths lines := by
    rw [show (extract_artifacts lines none).referenced
        = (sortStrings ((artifactSets lines).read.filter
            (fun q => q ∉ (artifactSets lines).edited
              ∧ q ∉ (artifactSets lines).written))).map (mkArtifact none) from rfl,
      pathsOf_map_mkArtifact_none, sortStrings, List.mem_insertionSort]
    simp only [List.mem_filter, decide_eq_true_eq, mem_read_artifactSets,
      mem_edited_artifactSets, mem_written_artifactSets]
  refine ⟨hc, hm, hr, ?_, ?_, ?_, ?_⟩
  · rw [hc, hm]; tauto
  · rw [hc, hr]; tauto
  · rw [hm, hr]; tauto
  · rw [hc, hm, hr, mem_specSeenPaths]; tauto

/-- Reading back the catalog file after `update_catalog` gives the saved
catalog: the loaded one with the entry replaced-or-appended, re-sorted, and
its counts recomputed. -/
theorem loadCatalogD_update (now dir : String) (f : JsonFile Catalog) (m : CatalogInput) :
    loadCatalogD dir (update_catalog now dir f m)
      = save_catalog now
          { loadCatalogD dir f with
              sessions := sortSessionsDesc
                (if (loadCatalogD dir f).sessions.any (·.id = m.id)
                 then replaceLastEntry (loadCatalogD dir f).sessions m.id (newCatEntry m)
                 else (loadCatalogD dir f).sessions ++ [newCatEntry m]) } := rfl

/-- Replacing an entry by one carrying the same id does not change the id
sequence. -/
theorem ids_replaceLastEntry (id0 : String) (e : CatEntry) (he : e.id = id0) :
    ∀ l : List CatEntry, (replaceLastEntry l id0 e).map (·.id) = l.map (·.id) := by
  intro l
  induction l with
  | nil => rfl
  | cons s rest ih =>
    unfold replaceLastEntry
    split_ifs with h1 h2 <;> simp_all

/-- The sort step is a permutation, so it preserves the id multiset. -/
theorem ids_sortSessionsDesc_perm (l : List CatEntry) :
    List.Perm ((sortSessionsDesc l).map (·.id)) (l.map (·.id)) :=
  (List.perm_insertionSort _ l).map (·.id)

/-- The sort step preserves the entry count. -/
theorem length_sortSessionsDesc (l : List CatEntry) :
    (sortSessionsDesc l).length = l.length :=
  (List.perm_insertionSort _ l).length_eq

/-- One `update_catalog` call preserves uniqueness of entries by id. -/
theorem nodup_ids_update (now dir : String) (f : JsonFile Catalog) (m : CatalogInput)
    (h : ((loadCatalogD dir f).sessions.map (·.id)).Nodup) :
    ((loadCatalogD dir (update_catalog now dir f m)).sessions.map (·.id)).Nodup := by
  rw [loadCatalogD_update]
  show ((sortSessionsDesc _).map (·.id)).Nodup
  rw [(ids_sortSessionsDesc_perm _).nodup_iff]
  split_ifs with hany
  · rw [ids_replaceLastEntry m.id (newCatEntry m) rfl]
    exact h
  · rw [List.map_append]
    simp only [List.nodup_append, List.map_cons, List.map_nil]
    refine ⟨h, List.nodup_singleton _, ?_⟩
    intro a ha hb
    simp only [List.mem_singleton] at hb
    subst hb
    obtain ⟨x, hx, hid⟩ := List.mem_map.mp ha
    exact hany (List.any_eq_true.mpr ⟨x, hx, by simp [hid, newCatEntry]⟩)

/-- After one `update_catalog` call, the persisted counts are recomputed from
the entry list. -/
theorem counts_after_update (now dir : String) (f : JsonFile Catalog) (m : CatalogInput) :
    (loadCatalogD dir (update_catalog now dir f m)).totalSessions
        = (loadCatalogD dir (update_catalog now dir f m)).sessions.length
    ∧ (loadCatalogD dir (update_catalog now dir f m)).needsReviewCount
        = ((loadCatalogD dir (update_catalog now dir f m)).sessions.filter
            (·.needsReview)).length := by
  rw [loadCatalogD_update]
  exact ⟨rfl, rfl⟩

/-- The fold invariant behind C2: counts and id-uniqueness hold through any
sequence of updates. -/
theorem catalog_fold_invariant (dir : String) :
    ∀ (updates : List (String × CatalogInput)) (f : JsonFile Catalog),
      ((loadCatalogD dir f).totalSessions = (loadCatalogD dir f).sessions.length
        ∧ (loadCatalogD dir f).needsReviewCount
            = ((loadCatalogD dir f).sessions.filter (·.needsReview)).length
        ∧ ((loadCatalogD dir f).sessions.map (·.id)).Nodup) →
      (((loadCatalogD dir (updates.foldl
            (fun g u => update_catalog u.1 dir g u.2) f)).totalSessions
          = (loadCatalogD dir (updates.foldl
              (fun g u => update_catalog u.1 dir g u.2) f)).sessions.length)
        ∧ ((loadCatalogD dir (updates.foldl
            (fun g u => update_catalog u.1 dir g u.2) f)).needsReviewCount
          = ((loadCatalogD dir (updates.foldl
              (fun g u => update_catalog u.1 dir g u.2) f)).sessions.filter
              (·.needsReview)).length)
        ∧ ((loadCatalogD dir (updates.foldl
            (fun g u => update_catalog u.1 dir g u.2) f)).sessions.map (·.id)).Nodup) := by
  intro updates
  induction updates with
  | nil => exact fun f h => h
  | cons u rest ih =>
    intro f h
    rw [List.foldl_cons]
    exact ih (update_catalog u.1 dir f u.2)
      ⟨(counts_after_update u.1 dir f u.2).1, (counts_after_update u.1 dir f u.2).2,
        nodup_ids_update u.1 dir f u.2 h.2.2⟩

/-- C2: after any sequence of `update_catalog` calls starting from a missing
(hence freshly-defaulted) catalog, the saved catalog's `total_sessions`
equals the entry count, `needs_review_count` equals the count of entries with
`needs_review = true`, and entries are unique by session id; moreover one
update with an id already present keeps the entry count (replacement in
place) while a new id grows it by one (append). -/
theorem C2_catalog_integrity (archiveDir : String)
    (updates : List (String × CatalogInput)) :
    ((catalogAfter archiveDir updates).totalSessions
        = (catalogAfter archiveDir updates).sessions.length
    ∧ (catalogAfter archiveDir updates).needsReviewCount
        = ((catalogAfter archiveDir updates).sessions.filter (·.needsReview)).length
    ∧ ((catalogAfter archiveDir updates).sessions.map (·.id)).Nodup)
    ∧ (∀ (now : String) (f : JsonFile Catalog) (m : CatalogInput),
        (loadCatalogD archiveDir (update_catalog now archiveDir f m)).sessions.length
          = if (loadCatalogD archiveDir f).sessions.any (·.id = m.id)
            then (loadCatalogD archiveDir f).sessions.length
            else (loadCatalogD archiveDir f).sessions.length + 1) := by
  constructor
  · exact catalog_fold_invariant archiveDir updates JsonFile.absent
      ⟨rfl, rfl, by simp [loadCatalogD, defaultCatalog]⟩
  · intro now f m
    rw [loadCatalogD_update]
    show (sortSessionsDesc _).length = _
    rw [length_sortSessionsDesc]
    split_ifs with hany
    · have := congrArg List.length
        (ids_replaceLastEntry m.id (newCatEntry m) rfl (loadCatalogD archiveDir f).sessions)
      simpa using this
    · simp

/-- C9: when the session id is in the manifest (with a non-empty directory),
no force or retitle flag is given, and the `.last_size` marker of the prior
archive directory equals the transcript's byte size, `archive` returns the
null result and leaves the whole filesystem state — manifest, catalog, and
every file of the archive tree (and the sidecar) — unchanged. -/
theorem C9_unchanged_short_circuit (env : ArchiveEnv) (sessionId : String)
    (tr : Transcript) (archiveDir : String) (providedTitle : Option String)
    (threePs : Option ThreePs) (st : ArchState) (M : Manifest) (d : String)
    (h1 : tr.present = true) (h2 : pyStrip tr.text ≠ "")
    (h3 : load_manifest st.manifestFile = .ok M)
    (h4 : M.lookup sessionId = some d) (h5 : d ≠ "")
    (h6 : st.sizeFiles.lookup d = some tr.sizeBytes) :
    archive env sessionId tr archiveDir false false providedTitle threePs st
      = .ok (none, st) := by
  unfold archive
  rw [if_neg (by simp [h1]), if_neg h2, h3]
  simp only [h4, h6, Bool.not_false, Bool.and_true, Bool.true_and, beq_self_eq_true,
    decide_eq_true_eq]
  rw [if_pos h5]

/-- C9 witness: the short-circuit theorem applied at a concrete state in
which session `"s1"` is archived at `/arch/d1` whose size marker matches. -/
theorem C9_witness :
    tr0.present = true ∧ pyStrip tr0.text ≠ ""
    ∧ load_manifest st0.manifestFile = .ok [("s1", "/arch/d1")]
    ∧ ([("s1", "/arch/d1")] : Manifest).lookup "s1" = some "/arch/d1"
    ∧ ("/arch/d1" : String) ≠ ""
    ∧ st0.sizeFiles.lookup "/arch/d1" = some tr0.sizeBytes
    ∧ archive env0 "s1" tr0 "/arch" false false none none st0 = .ok (none, st0) :=
  ⟨rfl, by decide, rfl, by decide, by decide, by decide,
    C9_unchanged_short_circuit env0 "s1" tr0 "/arch" none none st0 [("s1", "/arch/d1")]
      "/arch/d1" rfl (by decide) rfl (by decide) (by decide) (by decide)⟩
